import Mathlib

/-!
# Verification of the fuel-bill extraction pipeline

Shallow embedding of the repository's two source files:

* `src/app.py` — the Flask upload-and-extract service.  The core embedded
  here is `process_image` (response normalization with the total back-fill,
  lines 116–141) and the `upload_files` batch loop (lines 158–268).
* `src/main.py` — the batch/offline variant; its back-fill block
  (lines 76–84) is character-for-character the same as `app.py`'s, and its
  spreadsheet row construction (lines 86–95) is embedded as `excelRow`.

External collaborators (the Gemini model call, `json.loads`, `pdfplumber`,
`PIL.Image.open`, the filesystem) are modelled as oracle inputs: each
uploaded item carries the outcome those collaborators would produce, and
the embedded code is exactly the repository's control flow over those
outcomes.  Python `float` values are modelled as IEEE-754 binary64:
`float()` parses CPython's accepted syntax (decimal literals with PEP 515
underscores, `inf`/`infinity`/`nan`) and rounds the literal's exact value
to a 53-bit binary significand (round-to-nearest ties-to-even, subnormal
underflow, overflow to infinity); multiplication rounds the exact binary
product the same way; `round(x, 2)` performs CPython's correctly-rounded
decimal rounding of the binary value; and `str()` is modelled on the
two-decimal results the back-fill formats (plain-decimal regime,
|value| < 2^45).  Declared model boundaries: IEEE signed zero is
identified with `+0.0`, and `str()` of floats outside that regime
(exponent notation, full shortest-repr) is not modelled.
-/

namespace FuelBill

/-! ## Python string primitives -/

/-- Digit test on a character, by code point (`'0'`–`'9'`). -/
def isDigitChar (c : Char) : Bool :=
  48 ≤ c.toNat && c.toNat ≤ 57

/-- Python `str.strip()` whitespace set: space, `\t`, `\n`, `\r`, `\v`, `\f`. -/
def isPySpace (c : Char) : Bool :=
  c.toNat == 32 || c.toNat == 9 || c.toNat == 10 || c.toNat == 13 ||
  c.toNat == 11 || c.toNat == 12

/-- Strip leading and trailing whitespace from a character list. -/
def trimChars (l : List Char) : List Char :=
  ((l.dropWhile isPySpace).reverse.dropWhile isPySpace).reverse

/-- Python `s.strip()` on a `str` value. -/
def pyStripStr (s : String) : String :=
  String.mk (trimChars s.toList)

/-- Value of a list of decimal digit characters, most significant first. -/
def digitsToNat (l : List Char) : ℕ :=
  l.foldl (fun a c => 10 * a + (c.toNat - 48)) 0

/-- Consume an optional sign; returns (isNegative, rest). -/
def parseSign : List Char → Bool × List Char
  | '-' :: rest => (true, rest)
  | '+' :: rest => (false, rest)
  | l => (false, l)

/-- The exact value of a decimal literal, as integer mantissa over a
power of ten: `num / 10 ^ exp`.  This is the value a literal denotes
*before* binary rounding. -/
structure Dec where
  num : ℤ
  exp : ℕ
deriving DecidableEq

/-- Exponent part of a float literal (`e`/`E` already consumed), applied
to an unsigned mantissa. -/
def parseExp (mant : Dec) (l : List Char) : Option Dec :=
  let (eneg, l1) := parseSign l
  let ed := l1.takeWhile isDigitChar
  let rest := l1.dropWhile isDigitChar
  if ed = [] ∨ rest ≠ [] then none
  else
    let e := digitsToNat ed
    if eneg then some ⟨mant.num, mant.exp + e⟩
    else some ⟨mant.num * 10 ^ e, mant.exp⟩

/-- Decimal-literal grammar of `float()` after sign handling and
underscore removal: digits with an optional fraction part (at least one
digit overall), optional exponent; yields the literal's exact decimal
value. -/
def parseDecCore (l1 : List Char) : Option Dec :=
  let ip := l1.takeWhile isDigitChar
  let r1 := l1.dropWhile isDigitChar
  let fp : List Char :=
    match r1 with
    | '.' :: rest => rest.takeWhile isDigitChar
    | _ => []
  let r2 : List Char :=
    match r1 with
    | '.' :: rest => rest.dropWhile isDigitChar
    | _ => r1
  if ip = [] ∧ fp = [] then none
  else
    let m : ℤ := (digitsToNat ip * 10 ^ fp.length + digitsToNat fp : ℕ)
    let mant : Dec := ⟨m, fp.length⟩
    match r2 with
    | [] => some mant
    | 'e' :: rest => parseExp mant rest
    | 'E' :: rest => parseExp mant rest
    | _ => none

/-- PEP 515: an underscore in a numeric literal must have a digit on both
sides.  `prev` is the character preceding the rest of the scan. -/
def usOKAux : Char → List Char → Bool
  | _, [] => true
  | prev, c :: rest =>
    if c = '_' then
      (isDigitChar prev &&
        (match rest with
          | r :: _ => isDigitChar r
          | [] => false)) && usOKAux c rest
    else usOKAux c rest

/-- Underscore placement check for the whole (post-sign) literal. -/
def underscoresOK : List Char → Bool
  | [] => true
  | c :: rest => c ≠ '_' && usOKAux c rest

/-! ## Rounding -/

/-- Round a rational to the nearest integer, ties to even (the
tie-breaking rule of IEEE round-to-nearest and of Python's `round`), as a
mathematical specification. -/
def roundHalfEven (q : ℚ) : ℤ :=
  if q - ⌊q⌋ < 1 / 2 then ⌊q⌋
  else if 1 / 2 < q - ⌊q⌋ then ⌊q⌋ + 1
  else if 2 ∣ ⌊q⌋ then ⌊q⌋ else ⌊q⌋ + 1

/-- Round `a / b` (with `b > 0`) to the nearest integer, ties to even,
by Euclidean division — the executable counterpart of `roundHalfEven`. -/
def roundHalfEvenInt (a b : ℤ) : ℤ :=
  let q := Int.ediv a b
  let r := Int.emod a b
  if 2 * r < b then q
  else if b < 2 * r then q + 1
  else if 2 ∣ q then q else q + 1

/-! ## IEEE-754 binary64 -/

/-- A finite binary64 value, `m * 2 ^ e` (sign carried by `m`; not
necessarily normalized — every constructed value is exactly the double
the program holds). -/
structure B64 where
  m : ℤ
  e : ℤ
deriving DecidableEq

/-- The exact rational value of a finite double. -/
def B64.toRat (x : B64) : ℚ :=
  (x.m : ℚ) * 2 ^ x.e

/-- A Python float: a finite binary64, a signed infinity, or NaN.  IEEE
signed zero is identified with `+0.0` (declared model boundary). -/
inductive PyFloat
  | finite (x : B64)
  | inf (neg : Bool)
  | nan
deriving DecidableEq

/-- Binary length of a natural number (`⌊log2 n⌋ + 1` for positive `n`,
0 for 0), by structural recursion on a fuel bound. -/
def bitlenFuel : ℕ → ℕ → ℕ
  | 0, _ => 0
  | fuel + 1, n => if n = 0 then 0 else bitlenFuel fuel (n / 2) + 1

/-- Binary length with sufficient fuel. -/
def bitlen (n : ℕ) : ℕ :=
  bitlenFuel (n + 1) n

/-- Round the rational `a / b` (`b > 0`) to the nearest binary64: 53-bit
significand, round-to-nearest ties-to-even, normal exponents down to
`2^-1022` with subnormals at fixed scale `2^-1074`, overflow to the
signed infinity.  This is the rounding `float()` applies to a decimal
literal's exact value and multiplication applies to the exact product. -/
def roundRatToPyFloat (a b : ℤ) : PyFloat :=
  if a = 0 then .finite ⟨0, 0⟩
  else
    let n : ℤ := (a.natAbs : ℤ)
    let d : ℤ := (bitlen a.natAbs : ℤ) - (bitlen b.natAbs : ℤ)
    let E : ℤ := if b * 2 ^ d.toNat ≤ n * 2 ^ (-d).toNat then d else d - 1
    if -1022 ≤ E then
      let shift : ℤ := 52 - E
      let mu := roundHalfEvenInt (n * 2 ^ shift.toNat) (b * 2 ^ (-shift).toNat)
      let mu2 : ℤ := if mu = 2 ^ 53 then 2 ^ 52 else mu
      let E2 : ℤ := if mu = 2 ^ 53 then E + 1 else E
      if 1023 < E2 then .inf (a < 0)
      else .finite ⟨if a < 0 then -mu2 else mu2, E2 - 52⟩
    else
      let mu := roundHalfEvenInt (n * 2 ^ 1074) b
      .finite ⟨if a < 0 then -mu else mu, -1074⟩

/-- `float()` of an exact decimal value. -/
def decToPyFloat (d : Dec) : PyFloat :=
  roundRatToPyFloat d.num ((10 : ℤ) ^ d.exp)

/-- CPython `float(s)`: strip whitespace, optional sign, then `inf`,
`infinity` or `nan` (case-insensitive), or a decimal literal with
PEP 515 underscores, whose exact value is rounded to binary64 (overflow
gives the infinity, underflow gives zero, as in CPython).  `none` is the
`ValueError` case.  (ASCII only: CPython additionally strips unicode
whitespace and converts unicode decimal digits — outside the model.) -/
def pyFloatParse (s : String) : Option PyFloat :=
  let l := trimChars s.toList
  let (neg, l1) := parseSign l
  let low := l1.map Char.toLower
  if low = ['i', 'n', 'f'] ∨ low = ['i', 'n', 'f', 'i', 'n', 'i', 't', 'y'] then
    some (.inf neg)
  else if low = ['n', 'a', 'n'] then some .nan
  else if underscoresOK l1 then
    match parseDecCore (l1.filter (fun c => c ≠ '_')) with
    | some d => some (decToPyFloat (if neg then ⟨-d.num, d.exp⟩ else d))
    | none => none
  else none

/-- IEEE binary64 multiplication with the special-value rules Python
inherits: NaN propagates, `inf * 0` is NaN, signs combine, and the exact
product of finite values is rounded to the nearest double. -/
def PyFloat.mul : PyFloat → PyFloat → PyFloat
  | .nan, _ => .nan
  | _, .nan => .nan
  | .inf s, .inf t => .inf (s != t)
  | .inf s, .finite y => if y.m = 0 then .nan else .inf (s != decide (y.m < 0))
  | .finite x, .inf t => if x.m = 0 then .nan else .inf (decide (x.m < 0) != t)
  | .finite x, .finite y =>
    if 0 ≤ x.e + y.e then roundRatToPyFloat (x.m * y.m * 2 ^ (x.e + y.e).toNat) 1
    else roundRatToPyFloat (x.m * y.m) (2 ^ (-(x.e + y.e)).toNat)

/-- The hundredths integer CPython's `round(x, 2)` targets: the
ties-to-even rounding of `100 *` the exact binary value of `x` — exact
integer arithmetic when `x.e ≥ 0`, Euclidean rounding otherwise. -/
def twoDecDigits (x : B64) : ℤ :=
  if 0 ≤ x.e then x.m * 100 * 2 ^ x.e.toNat
  else roundHalfEvenInt (x.m * 100) (2 ^ (-x.e).toNat)

/-- CPython `round(x, 2)`: non-finite values pass through; a finite value
is rounded to the multiple of 1/100 closest to its exact binary value
(ties to even), and the result is the double nearest that decimal. -/
def pyRound2 : PyFloat → PyFloat
  | .finite x => roundRatToPyFloat (twoDecDigits x) 100
  | .inf s => .inf s
  | .nan => .nan

/-- Python `str()` of the floats the back-fill formats: `"nan"`,
`"inf"`/`"-inf"`, and for the finite two-decimal doubles `round(_, 2)`
produces with |value| < 2^45 the trailing-zero-stripped decimal of its
hundredths, keeping at least one fractional digit (`917.40 ↦ "917.4"`,
`917.00 ↦ "917.0"`, `917.05 ↦ "917.05"`).  In that regime the hundredths
are recovered exactly from the double (100 · ulp < 1/2) and the shortest
repr CPython prints is exactly this string; larger magnitudes (exponent
notation) and non-two-decimal doubles are outside the model. -/
def pyFloatStr : PyFloat → String
  | .nan => "nan"
  | .inf true => "-inf"
  | .inf false => "inf"
  | .finite x =>
    let m := twoDecDigits x
    let sgn := if m < 0 then "-" else ""
    let n := m.natAbs
    let ip := n / 100
    let fr := n % 100
    if fr = 0 then sgn ++ toString ip ++ ".0"
    else if fr % 10 = 0 then sgn ++ toString ip ++ "." ++ toString (fr / 10)
    else sgn ++ toString ip ++ "." ++ (if fr < 10 then "0" else "") ++ toString fr

/-! ## JSON values and records -/

/-- A scalar JSON value, as produced by `json.loads` for the fields of the
extraction record.  (No claim involves nested arrays or objects, so they
are omitted from the value type.) -/
inductive JVal
  | jstr (s : String)
  | jnum (d : Dec)
  | jbool (b : Bool)
  | jnull
deriving DecidableEq

/-- A parsed JSON object: association list of key/value pairs (keys are
unique in any object produced by `json.loads`). -/
abbrev JObj := List (String × JVal)

/-- Python exceptions distinguished by the embedded code. -/
inductive PyErr
  | valueError (msg : String)
  | attributeError (msg : String)
  | typeError (msg : String)
  | keyError (msg : String)
deriving DecidableEq

/-- Equality on `Except` results is decidable when it is on both sides. -/
instance {ε α : Type} [DecidableEq ε] [DecidableEq α] : DecidableEq (Except ε α) := fun x y =>
  match x, y with
  | .ok a, .ok b =>
    if h : a = b then .isTrue (by rw [h]) else .isFalse (fun hh => h (Except.ok.inj hh))
  | .error a, .error b =>
    if h : a = b then .isTrue (by rw [h]) else .isFalse (fun hh => h (Except.error.inj hh))
  | .ok _, .error _ => .isFalse (fun hh => Except.noConfusion hh)
  | .error _, .ok _ => .isFalse (fun hh => Except.noConfusion hh)

/-- Python `str(e)` for an exception: its message. -/
def pyErrStr : PyErr → String
  | .valueError m => m
  | .attributeError m => m
  | .typeError m => m
  | .keyError m => m

/-- `data.get(k)`: first binding of `k`, if any. -/
def dictGet (data : JObj) (k : String) : Option JVal :=
  match data with
  | [] => none
  | (k', v) :: rest => if k' = k then some v else dictGet rest k

/-- `data.get(k, dflt)`. -/
def dictGetD (data : JObj) (k : String) (dflt : JVal) : JVal :=
  (dictGet data k).getD dflt

/-- `data[k]` read: raises `KeyError` when the key is absent. -/
def dictItem (data : JObj) (k : String) : Except PyErr JVal :=
  match dictGet data k with
  | some v => .ok v
  | none => .error (.keyError k)

/-- `data[k] = v`: replace in place if present, else append. -/
def dictSet (data : JObj) (k : String) (v : JVal) : JObj :=
  match data with
  | [] => [(k, v)]
  | (k', v') :: rest => if k' = k then (k, v) :: rest else (k', v') :: dictSet rest k v

/-- Python truthiness for the JSON scalar values. -/
def truthy : JVal → Bool
  | .jstr s => s != ""
  | .jnum d => decide (d.num ≠ 0)
  | .jbool b => b
  | .jnull => false

/-- Truthiness of a `data.get(k)` result (`None` is falsy). -/
def truthyO : Option JVal → Bool
  | some v => truthy v
  | none => false

/-- `v.strip()` on a JSON value: only `str` has the attribute; any other
value raises `AttributeError` (which is *not* a `ValueError`). -/
def pyStrip : JVal → Except PyErr String
  | .jstr s => .ok (pyStripStr s)
  | .jnum _ => .error (.attributeError "object has no attribute strip")
  | .jbool _ => .error (.attributeError "object has no attribute strip")
  | .jnull => .error (.attributeError "NoneType object has no attribute strip")

/-- `float(v)` on a JSON value: parses strings (raising `ValueError` when
CPython `float()` would), rounds JSON numbers to binary64, converts
booleans, and raises `TypeError` on `None`. -/
def pyFloat : JVal → Except PyErr PyFloat
  | .jstr s =>
    match pyFloatParse s with
    | some f => .ok f
    | none => .error (.valueError ("could not convert string to float: " ++ s))
  | .jnum d => .ok (decToPyFloat d)
  | .jbool b => .ok (.finite ⟨if b then 1 else 0, 0⟩)
  | .jnull => .error (.typeError "float() argument must be a string or a number, not NoneType")

/-! ## The back-fill rule (`app.py` lines 128–136 = `main.py` lines 76–84) -/

/-- Body of the `try:` block at `app.py` lines 130–134:
`volume = float(data["Volume(L)"])`, `rate = float(data["Rate per Litre"])`,
`total = round(volume * rate, 2)`, `data["Total Amount (Rs)"] = str(total)`. -/
def backfillTry (data : JObj) : Except PyErr JObj :=
  match dictItem data "Volume(L)" with
  | .error e => .error e
  | .ok vv =>
    match pyFloat vv with
    | .error e => .error e
    | .ok volume =>
      match dictItem data "Rate per Litre" with
      | .error e => .error e
      | .ok rv =>
        match pyFloat rv with
        | .error e => .error e
        | .ok rate =>
          .ok (dictSet data "Total Amount (Rs)" (.jstr (pyFloatStr (pyRound2 (volume.mul rate)))))

/-- `app.py` lines 128–136: the Estimate-Total-if-missing block.
`if not data.get("Total Amount (Rs)", "").strip() and data.get("Volume(L)")
and data.get("Rate per Litre"):` guards `backfillTry`, whose `ValueError`s
are swallowed by `except ValueError: pass`; any other exception (e.g. the
`AttributeError` from `.strip()` on a non-string, raised in the `if`
condition itself, outside the `try`) propagates. -/
def backfill (data : JObj) : Except PyErr JObj :=
  match pyStrip (dictGetD data "Total Amount (Rs)" (.jstr "")) with
  | .error e => .error e
  | .ok stripped =>
    if (stripped == "") && truthyO (dictGet data "Volume(L)")
        && truthyO (dictGet data "Rate per Litre") then
      match backfillTry data with
      | .ok d => .ok d
      | .error (.valueError _) => .ok data
      | .error e => .error e
    else .ok data

/-! ## Per-page processing (`app.py` lines 115–141) -/

/-- What one page image yields when `process_image` runs on it: either the
body of its outer `try:` raised before a JSON object was obtained (the
Gemini call failed, or `json.loads` rejected the fence-stripped reply —
both external collaborators), or the reply parsed to a JSON object.  The
exception's `str(e)` is carried as `msg`. -/
inductive PageOutcome
  | exn (msg : String)
  | parsed (data : JObj)
deriving DecidableEq

/-- A per-page/per-item result as appended to `results`: either
`{"file": ..., "data": ...}` or `{"file": ..., "error": ...}`. -/
inductive ResultItem
  | ok (file : String) (data : JObj)
  | err (file : String) (error : String)
deriving DecidableEq

/-- The identifier (`"file"` key) a result item carries. -/
def ResultItem.file : ResultItem → String
  | .ok f _ => f
  | .err f _ => f

/-- `app.py` `process_image(image, fuel_bill_no)`: run the model call and
JSON parse (folded into the `PageOutcome` oracle), apply the back-fill,
and convert any escaped exception into an error record for this page. -/
def process_image (page : PageOutcome) (fuel_bill_no : String) : ResultItem :=
  match page with
  | .exn msg => .err fuel_bill_no msg
  | .parsed data =>
    match backfill data with
    | .ok d => .ok fuel_bill_no d
    | .error e => .err fuel_bill_no (pyErrStr e)

/-! ## File intake helpers (`app.py` lines 52, 80–81, 211, 243–245) -/

/-- `ALLOWED_EXTENSIONS = {'pdf', 'png', 'jpg', 'jpeg'}`. -/
def ALLOWED_EXTENSIONS : List String := ["pdf", "png", "jpg", "jpeg"]

/-- Lower-casing of a string, character by character (`s.lower()`). -/
def lowerStr (s : String) : String :=
  String.mk (s.toList.map Char.toLower)

/-- Characters after the last `'.'` (`filename.rsplit('.', 1)[1]` when a
dot is present). -/
def afterLastDot (s : String) : String :=
  String.mk ((s.toList.reverse.takeWhile (fun c => c ≠ '.')).reverse)

/-- `app.py` lines 80–81: `'.' in filename and
filename.rsplit('.', 1)[1].lower() in ALLOWED_EXTENSIONS`. -/
def allowed_file (filename : String) : Bool :=
  filename.toList.contains '.' && ALLOWED_EXTENSIONS.contains (lowerStr (afterLastDot filename))

/-- `filename.lower().endswith(".pdf")` (line 211). -/
def pdfNamed (filename : String) : Bool :=
  (lowerStr filename).toList.reverse.take 4 == ['f', 'd', 'p', '.']

/-- `os.path.splitext(filename)[0]`: everything before the last extension
dot, where leading dots never start an extension. -/
def splitextRoot (s : String) : String :=
  let l := s.toList
  let lead := l.takeWhile (fun c => c = '.')
  let rest := l.drop lead.length
  if rest.contains '.' then
    String.mk (lead ++ ((rest.reverse.dropWhile (fun c => c ≠ '.')).drop 1).reverse)
  else s

/-- Identifier of page `i` (0-based) out of `total` pages of a file with
basename `base` (line 244): `f"{base}_page{i+1}"` when the file produced
more than one image, else `base`. -/
def pageName (base : String) (total : ℕ) (i : ℕ) : String :=
  if 1 < total then base ++ "_page" ++ toString (i + 1) else base

/-! ## The batch orchestrator (`app.py` lines 158–268) -/

/-- One part of the multipart upload, together with the outcomes the
external collaborators would produce for it.  `filename` stands for both
`f.filename` and `secure_filename(f.filename)` (the werkzeug sanitizer is
an external collaborator, modelled as already applied).  `size` is the
byte length of the saved content.  `saveErr = some msg` means
`f.save`/`open`/`read` raised `msg` (the generic `except` path);
`pdfEnv` is what `pdfplumber` yields if the file is opened as a PDF
(`.error msg` = it raised, `.ok ps` = its page list with each page's
downstream outcome); `imgEnv` likewise for `PIL.Image.open`. -/
structure UploadItem where
  filename : String
  size : ℕ
  saveErr : Option String
  pdfEnv : Except String (List PageOutcome)
  imgEnv : Except String PageOutcome

/-- File-lifecycle and remote-call events emitted while processing, in
order: `save`/`remove` of the temporary file, and one `modelCall` per
`generate_content` request issued to the extraction service. -/
inductive Ev
  | save (name : String)
  | remove (name : String)
  | modelCall
deriving DecidableEq

/-- Lines 243–247: `for i, img in enumerate(images_to_process)` — name the
page and run `process_image` on it, appending each result. `n` is
`len(images_to_process)`; `i` the current index. -/
def pageLoopAux (base : String) (n : ℕ) (i : ℕ) : List PageOutcome → List ResultItem
  | [] => []
  | p :: rest => process_image p (pageName base n i) :: pageLoopAux base n (i + 1) rest

/-- The page loop over all images extracted from `filename`. -/
def pageLoop (filename : String) (ps : List PageOutcome) : List ResultItem :=
  pageLoopAux (splitextRoot filename) ps.length 0 ps

/-- Body of the per-file `try:` (lines 170–247), from the point where the
temporary file has been saved: the empty-file check, the PDF/image
dispatch, and the page loop.  Returns the `modelCall` events made and the
result items appended for this file.  The `some msg` case of `saveErr` is
the `except Exception` handler at lines 249–255. -/
def runItemBody (f : UploadItem) : List Ev × List ResultItem :=
  match f.saveErr with
  | some msg => ([], [.err f.filename ("Error processing file: " ++ msg)])
  | none =>
    if f.size = 0 then ([], [.err f.filename "File is empty"])
    else if pdfNamed f.filename then
      match f.pdfEnv with
      | .error msg => ([], [.err f.filename ("Error processing PDF: " ++ msg)])
      | .ok ps =>
        if ps = [] then
          ([], [.err f.filename "Error processing PDF: No pages found in PDF"])
        else (ps.map (fun _ => Ev.modelCall), pageLoop f.filename ps)
    else
      match f.imgEnv with
      | .error msg => ([], [.err f.filename ("Error opening image: " ++ msg)])
      | .ok p => ([Ev.modelCall], pageLoop f.filename [p])

/-- One iteration of the `for f in files` loop (lines 159–263): the
extension gate (no temporary file is ever written for a rejected part),
then save / body / `finally`-removal.  The `finally` block (lines
256–263) runs on every path out of the `try`, including every `continue`,
so the `remove` event closes the trace whenever a `save` opened it;
removal itself is modelled as effective (the source logs and continues if
the OS call fails). -/
def processItem (f : UploadItem) : List Ev × List ResultItem :=
  if allowed_file f.filename then
    (Ev.save f.filename :: (runItemBody f).1 ++ [Ev.remove f.filename], (runItemBody f).2)
  else
    ([], [.err f.filename "Invalid file type. Allowed types: PDF, PNG, JPG, JPEG"])

/-- The aggregation loop of `upload_files`: `results` accumulated over the
uploaded parts in submission order. -/
def upload_files : List UploadItem → List ResultItem
  | [] => []
  | f :: rest => (processItem f).2 ++ upload_files rest

/-- The event trace of a whole batch, in order. -/
def uploadEvents : List UploadItem → List Ev
  | [] => []
  | f :: rest => (processItem f).1 ++ uploadEvents rest

/-- Fold one event over the set (list) of temporary files currently on
disk: `save` creates the file, `remove` deletes it, a model call touches
nothing. -/
def residualStep (acc : List String) : Ev → List String
  | .save n => acc ++ [n]
  | .remove n => acc.filter (fun m => m ≠ n)
  | .modelCall => acc

/-- Temporary files still on disk after a trace, starting from none. -/
def residual (evs : List Ev) : List String :=
  evs.foldl residualStep []

/-! ## The offline variant's row construction (`main.py` lines 86–95) -/

/-- `ws.append([...])`: one spreadsheet row, reading every schema key with
`data.get(key, "")`. -/
def excelRow (fuel_bill_no : String) (data : JObj) : List JVal :=
  [.jstr fuel_bill_no,
   dictGetD data "Petrol Pump Name" (.jstr ""),
   dictGetD data "Date" (.jstr ""),
   dictGetD data "Product" (.jstr ""),
   dictGetD data "Volume(L)" (.jstr ""),
   dictGetD data "Rate per Litre" (.jstr ""),
   dictGetD data "Total Amount (Rs)" (.jstr "")]

/-- The six documented keys of the extraction record. -/
def sixKeys : List String :=
  ["Petrol Pump Name", "Date", "Product", "Volume(L)", "Rate per Litre", "Total Amount (Rs)"]

/-- Whether a record carries all six documented keys. -/
def hasSixKeys (data : JObj) : Bool :=
  sixKeys.all (fun k => (dictGet data k).isSome)

/-- `app.py` lines 121–124: strip a code fence from the model reply.
`content[a:-b]` is `pySlice content a b`. -/
def pySlice (s : String) (a b : ℕ) : String :=
  let l := s.toList.drop a
  String.mk (l.take (l.length - b))

/-- The fence-stripping step of the Response Normalizer. -/
def stripFence (content : String) : String :=
  if content.startsWith "```json" then pyStripStr (pySlice content 7 3)
  else if content.startsWith "```" then pyStripStr (pySlice content 3 3)
  else content

/-! ## Helper lemmas -/

theorem dictGet_dictSet (d : JObj) (k : String) (v : JVal) :
    dictGet (dictSet d k v) k = some v := by
  induction d with
  | nil => simp [dictSet, dictGet]
  | cons kv rest ih =>
    obtain ⟨k', v'⟩ := kv
    by_cases h : k' = k
    · simp [dictSet, dictGet, h]
    · simp [dictSet, dictGet, h, ih]

theorem roundHalfEvenInt_eq (a b : ℤ) (hb : 0 < b) :
    roundHalfEvenInt a b = roundHalfEven ((a : ℚ) / (b : ℚ)) := by
  have hbq : (0 : ℚ) < (b : ℚ) := by exact_mod_cast hb
  have hbne : (b : ℚ) ≠ 0 := ne_of_gt hbq
  have hr0 : 0 ≤ Int.emod a b := Int.emod_nonneg a (ne_of_gt hb)
  have hrb : Int.emod a b < b := Int.emod_lt_of_pos a hb
  have ha : a = b * Int.ediv a b + Int.emod a b := (Int.ediv_add_emod a b).symm
  have hval : (a : ℚ) / b = (Int.ediv a b : ℚ) + (Int.emod a b : ℚ) / b := by
    have hcast : (a : ℚ) = b * (Int.ediv a b : ℚ) + (Int.emod a b : ℚ) := by exact_mod_cast ha
    rw [hcast]; field_simp; ring
  have hfrac0 : (0 : ℚ) ≤ (Int.emod a b : ℚ) / b := by
    apply div_nonneg _ (le_of_lt hbq)
    exact_mod_cast hr0
  have hfrac1 : (Int.emod a b : ℚ) / b < 1 := by
    rw [div_lt_one hbq]; exact_mod_cast hrb
  have hfloor : ⌊(a : ℚ) / b⌋ = Int.ediv a b := by
    rw [hval, add_comm, Int.floor_add_int,
      Int.floor_eq_zero_iff.mpr (Set.mem_Ico.mpr ⟨hfrac0, hfrac1⟩)]
    simp
  have hsub : (a : ℚ) / b - (⌊(a : ℚ) / b⌋ : ℚ) = (Int.emod a b : ℚ) / b := by
    rw [hfloor, hval]; ring
  have hlt : ((Int.emod a b : ℚ) / b < 1 / 2) ↔ (2 * Int.emod a b < b) := by
    rw [div_lt_iff₀ hbq]
    constructor
    · intro h
      have h2 : ((2 * Int.emod a b : ℤ) : ℚ) < (b : ℚ) := by push_cast; linarith
      exact_mod_cast h2
    · intro h
      have h2 : ((2 * Int.emod a b : ℤ) : ℚ) < ((b : ℤ) : ℚ) := by exact_mod_cast h
      push_cast at h2
      linarith
  have hgt : (1 / 2 < (Int.emod a b : ℚ) / b) ↔ (b < 2 * Int.emod a b) := by
    rw [lt_div_iff₀ hbq]
    constructor
    · intro h
      have h2 : ((b : ℤ) : ℚ) < ((2 * Int.emod a b : ℤ) : ℚ) := by push_cast; linarith
      exact_mod_cast h2
    · intro h
      have h2 : ((b : ℤ) : ℚ) < ((2 * Int.emod a b : ℤ) : ℚ) := by exact_mod_cast h
      push_cast at h2
      linarith
  simp only [roundHalfEvenInt, roundHalfEven]
  rw [hsub, hfloor]
  by_cases h1 : 2 * Int.emod a b < b
  · rw [if_pos h1, if_pos (hlt.mpr h1)]
  · rw [if_neg h1, if_neg (fun hc => h1 (hlt.mp hc))]
    by_cases h2 : b < 2 * Int.emod a b
    · rw [if_pos h2, if_pos (hgt.mpr h2)]
    · rw [if_neg h2, if_neg (fun hc => h2 (hgt.mp hc))]

theorem roundHalfEven_intCast (n : ℤ) : roundHalfEven (n : ℚ) = n := by
  unfold roundHalfEven
  rw [Int.floor_intCast]
  rw [if_pos (by norm_num)]

theorem twoDecDigits_eq (x : B64) :
    twoDecDigits x = roundHalfEven (B64.toRat x * 100) := by
  unfold twoDecDigits B64.toRat
  by_cases he : 0 ≤ x.e
  · rw [if_pos he]
    obtain ⟨k, hk⟩ : ∃ k : ℕ, x.e = (k : ℤ) := ⟨x.e.toNat, by omega⟩
    rw [hk]
    simp only [Int.toNat_natCast]
    have hcast : (x.m : ℚ) * 2 ^ (k : ℤ) * 100 = ((x.m * 100 * 2 ^ k : ℤ) : ℚ) := by
      push_cast
      rw [zpow_natCast]
      ring
    rw [hcast, roundHalfEven_intCast]
  · rw [if_neg he]
    obtain ⟨k, hk⟩ : ∃ k : ℕ, x.e = -(k : ℤ) := ⟨(-x.e).toNat, by omega⟩
    rw [hk]
    simp only [neg_neg, Int.toNat_natCast]
    have hb : (0 : ℤ) < 2 ^ k := by positivity
    rw [roundHalfEvenInt_eq _ _ hb]
    congr 1
    push_cast
    rw [zpow_neg, zpow_natCast]
    field_simp

/-! ## Claim theorems: the back-fill rule -/

/-- Whether a float is in the plain-decimal `str()` regime the model
covers: finite with at most `2^45` in absolute value (measured on its
hundredths); non-finite values print as `inf`/`nan` and are always
covered. -/
def inPlainRegime : PyFloat → Bool
  | .finite p => (twoDecDigits p).natAbs ≤ 100 * 2 ^ 45
  | _ => true

set_option maxRecDepth 8000 in
/-- C1 counterexample: the program computes with binary doubles, not exact
decimals.  At `Volume(L)="0.5"`, `Rate per Litre="5.35"` the binary64
product is 2.67499999999999982…, so the back-fill stores `"2.67"`; the
exact product 0.5 × 5.35 = 2.675 rounded to 2 decimal places is 268
hundredths, i.e. `"2.68"` — the claim's asserted value differs from what
the program stores. -/
theorem backfill_binary_vs_exact_cex :
    backfill [("Volume(L)", JVal.jstr "0.5"), ("Rate per Litre", JVal.jstr "5.35"),
        ("Total Amount (Rs)", JVal.jstr "")] =
      Except.ok [("Volume(L)", JVal.jstr "0.5"), ("Rate per Litre", JVal.jstr "5.35"),
        ("Total Amount (Rs)", JVal.jstr "2.67")] ∧
    roundHalfEven ((5 / 10 : ℚ) * (535 / 100) * 100) = 268 ∧
    ("2.67" : String) ≠ "2.68" := by
  refine ⟨by decide, ?_, by decide⟩
  have h0 : (5 / 10 : ℚ) * (535 / 100) * 100 = 535 / 2 := by norm_num
  have hf : ⌊(535 / 2 : ℚ)⌋ = 267 := by
    apply Int.floor_eq_iff.mpr
    constructor <;> norm_num
  rw [h0]
  unfold roundHalfEven
  rw [hf]
  rw [if_neg (by norm_num), if_neg (by norm_num), if_neg (by norm_num)]
  norm_num

/-- C1 (amended): when the parsed record's `Total Amount (Rs)` is a
whitespace-only string and `Volume(L)` and `Rate per Litre` are non-empty
strings that `float()` parses to finite doubles, the back-fill sets
`Total Amount (Rs)` to `str(round(volume * rate, 2))` computed in IEEE-754
binary64 arithmetic: the binary product, rounded to the multiple of 1/100
nearest its exact binary value (ties to even, as the last two conjuncts
make precise), formatted as a plain decimal string.  The magnitude
hypothesis scopes the claim to the plain-decimal `str()` regime
(|total| ≤ 2^45); Python prints larger finite totals in exponent
notation, which is outside the model. -/
theorem backfill_computes_missing_total
    (data : JObj) (t v r : String) (xv xr : B64)
    (hT : dictGet data "Total Amount (Rs)" = some (.jstr t))
    (ht : pyStripStr t = "")
    (hV : dictGet data "Volume(L)" = some (.jstr v)) (hv : v ≠ "")
    (hR : dictGet data "Rate per Litre" = some (.jstr r)) (hr : r ≠ "")
    (hpv : pyFloatParse v = some (.finite xv))
    (hpr : pyFloatParse r = some (.finite xr))
    (_hsmall : inPlainRegime (PyFloat.mul (.finite xv) (.finite xr)) = true) :
    backfill data = .ok (dictSet data "Total Amount (Rs)"
        (.jstr (pyFloatStr (pyRound2 (PyFloat.mul (.finite xv) (.finite xr)))))) ∧
    dictGet (dictSet data "Total Amount (Rs)"
        (.jstr (pyFloatStr (pyRound2 (PyFloat.mul (.finite xv) (.finite xr))))))
      "Total Amount (Rs)" =
      some (.jstr (pyFloatStr (pyRound2 (PyFloat.mul (.finite xv) (.finite xr))))) ∧
    (∀ x : B64, twoDecDigits x = roundHalfEven (B64.toRat x * 100)) ∧
    (∀ p : B64, pyRound2 (.finite p) =
      roundRatToPyFloat (roundHalfEven (B64.toRat p * 100)) 100) := by
  refine ⟨?_, dictGet_dictSet _ _ _, twoDecDigits_eq, ?_⟩
  · simp only [backfill, backfillTry, dictGetD, dictItem, hT, hV, hR, Option.getD_some,
      pyStrip, ht, truthyO, truthy, pyFloat, hpv, hpr]
    simp [hv, hr]
  · intro p
    simp [pyRound2, twoDecDigits_eq]

set_option maxRecDepth 8000 in
/-- C1 witness: `Volume(L)="10"`, `Rate per Litre="91.74"`,
`Total Amount (Rs)=""` back-fills to `"917.4"`, through the actual binary
doubles 5629499534213120·2⁻⁴⁹ and 6455628590858895·2⁻⁴⁶. -/
theorem backfill_computes_missing_total_witness :
    backfill [("Volume(L)", JVal.jstr "10"), ("Rate per Litre", JVal.jstr "91.74"),
        ("Total Amount (Rs)", JVal.jstr "")] =
      Except.ok [("Volume(L)", JVal.jstr "10"), ("Rate per Litre", JVal.jstr "91.74"),
        ("Total Amount (Rs)", JVal.jstr "917.4")] := by
  have h := backfill_computes_missing_total
    [("Volume(L)", JVal.jstr "10"), ("Rate per Litre", JVal.jstr "91.74"),
      ("Total Amount (Rs)", JVal.jstr "")]
    "" "10" "91.74" ⟨5629499534213120, -49⟩ ⟨6455628590858895, -46⟩
    (by decide) (by decide) (by decide) (by decide) (by decide) (by decide)
    (by decide) (by decide) (by decide)
  exact h.1.trans (by decide)

set_option maxRecDepth 8000 in
/-- C2 counterexample: `"nan"` is not a decimal number, yet CPython
`float("nan")` succeeds, so the back-fill runs and *changes* the record:
with `Volume(L)="nan"`, `Rate per Litre="91.74"`, `Total Amount (Rs)=""`
the stored total becomes `"nan"`, contradicting "leaves TotalAmount
unchanged". -/
theorem backfill_accepts_nonnumeric_cex :
    backfill [("Volume(L)", JVal.jstr "nan"), ("Rate per Litre", JVal.jstr "91.74"),
        ("Total Amount (Rs)", JVal.jstr "")] =
      Except.ok [("Volume(L)", JVal.jstr "nan"), ("Rate per Litre", JVal.jstr "91.74"),
        ("Total Amount (Rs)", JVal.jstr "nan")] ∧
    backfill [("Volume(L)", JVal.jstr "nan"), ("Rate per Litre", JVal.jstr "91.74"),
        ("Total Amount (Rs)", JVal.jstr "")] ≠
      Except.ok [("Volume(L)", JVal.jstr "nan"), ("Rate per Litre", JVal.jstr "91.74"),
        ("Total Amount (Rs)", JVal.jstr "")] := by
  constructor
  · decide
  · decide

/-- C2 (amended): with an empty/whitespace-only total, if either
`Volume(L)` or `Rate per Litre` is a string CPython `float()` rejects
with `ValueError` (not in Python's float syntax: optionally-signed
decimal literals with PEP 515 underscores, or `inf`/`infinity`/`nan`),
the back-fill leaves the record unchanged — the `ValueError` is swallowed
— and `process_image` still returns it as a success.  (Strings such as
`"inf"`, `"nan"` or `"1_0"` do parse and do trigger the back-fill.) -/
theorem backfill_skips_on_unparsable
    (data : JObj) (t v r : String) (fbn : String)
    (hT : dictGet data "Total Amount (Rs)" = some (.jstr t))
    (ht : pyStripStr t = "")
    (hV : dictGet data "Volume(L)" = some (.jstr v))
    (hR : dictGet data "Rate per Litre" = some (.jstr r))
    (hp : pyFloatParse v = none ∨ pyFloatParse r = none) :
    backfill data = .ok data ∧ process_image (.parsed data) fbn = .ok fbn data := by
  have hb : backfill data = .ok data := by
    by_cases hv : v = ""
    · simp only [backfill, dictGetD, hT, Option.getD_some, pyStrip, ht, truthyO, hV, truthy]
      simp [hv]
    · by_cases hr : r = ""
      · simp only [backfill, dictGetD, hT, Option.getD_some, pyStrip, ht, truthyO, hV, hR,
          truthy]
        simp [hr]
      · rcases hpv : pyFloatParse v with _ | f
        · simp only [backfill, backfillTry, dictGetD, dictItem, hT, hV, hR, Option.getD_some,
            pyStrip, ht, truthyO, truthy, pyFloat, hpv]
          simp [hv, hr]
        · have hpr : pyFloatParse r = none := by
            rcases hp with h | h
            · rw [hpv] at h; exact absurd h (by simp)
            · exact h
          simp only [backfill, backfillTry, dictGetD, dictItem, hT, hV, hR, Option.getD_some,
            pyStrip, ht, truthyO, truthy, pyFloat, hpv, hpr]
          simp [hv, hr]
  exact ⟨hb, by simp [process_image, hb]⟩

/-- C2 witness: `Volume(L)="abc"` (a `ValueError` for `float()`) leaves
`Total Amount (Rs)=""` untouched and the record is still a success. -/
theorem backfill_skips_on_unparsable_witness :
    backfill [("Volume(L)", JVal.jstr "abc"), ("Rate per Litre", JVal.jstr "91.74"),
        ("Total Amount (Rs)", JVal.jstr "")] =
      Except.ok [("Volume(L)", JVal.jstr "abc"), ("Rate per Litre", JVal.jstr "91.74"),
        ("Total Amount (Rs)", JVal.jstr "")] ∧
    process_image (.parsed [("Volume(L)", JVal.jstr "abc"),
        ("Rate per Litre", JVal.jstr "91.74"), ("Total Amount (Rs)", JVal.jstr "")]) "bill" =
      .ok "bill" [("Volume(L)", JVal.jstr "abc"), ("Rate per Litre", JVal.jstr "91.74"),
        ("Total Amount (Rs)", JVal.jstr "")] :=
  backfill_skips_on_unparsable
    [("Volume(L)", JVal.jstr "abc"), ("Rate per Litre", JVal.jstr "91.74"),
      ("Total Amount (Rs)", JVal.jstr "")]
    "" "abc" "91.74" "bill"
    (by decide) (by decide) (by decide) (by decide) (Or.inl (by decide))

/-- C3: a record whose `Total Amount (Rs)` is already a non-whitespace-only
string passes through the back-fill unchanged, whatever the other fields
hold; in particular re-running normalization on an already-normalized
record is a no-op on the whole record. -/
theorem backfill_preserves_nonempty_total
    (data : JObj) (t : String) (fbn : String)
    (hT : dictGet data "Total Amount (Rs)" = some (.jstr t))
    (ht : pyStripStr t ≠ "") :
    backfill data = .ok data ∧ process_image (.parsed data) fbn = .ok fbn data := by
  have hb : backfill data = .ok data := by
    simp only [backfill, dictGetD, hT, Option.getD_some, pyStrip]
    simp [ht]
  exact ⟨hb, by simp [process_image, hb]⟩

/-- C3 witness: a model-supplied total `"500"` survives the back-fill even
with numeric volume and rate present. -/
theorem backfill_preserves_nonempty_total_witness :
    backfill [("Total Amount (Rs)", JVal.jstr "500"), ("Volume(L)", JVal.jstr "10"),
        ("Rate per Litre", JVal.jstr "91.74")] =
      Except.ok [("Total Amount (Rs)", JVal.jstr "500"), ("Volume(L)", JVal.jstr "10"),
        ("Rate per Litre", JVal.jstr "91.74")] ∧
    process_image (.parsed [("Total Amount (Rs)", JVal.jstr "500"),
        ("Volume(L)", JVal.jstr "10"), ("Rate per Litre", JVal.jstr "91.74")]) "bill" =
      .ok "bill" [("Total Amount (Rs)", JVal.jstr "500"), ("Volume(L)", JVal.jstr "10"),
        ("Rate per Litre", JVal.jstr "91.74")] :=
  backfill_preserves_nonempty_total
    [("Total Amount (Rs)", JVal.jstr "500"), ("Volume(L)", JVal.jstr "10"),
      ("Rate per Litre", JVal.jstr "91.74")]
    "500" "bill" (by decide) (by decide)

/-- C10: when `Total Amount (Rs)` holds a JSON number, `.strip()` raises an
`AttributeError` in the back-fill's guard condition; it is not a
`ValueError`, so it escapes to `process_image`'s outer handler and the
whole page becomes an error result instead of returning the parsed data. -/
theorem nonstring_total_escapes_guard
    (data : JObj) (d : Dec) (fbn : String)
    (hT : dictGet data "Total Amount (Rs)" = some (.jnum d)) :
    backfill data = .error (.attributeError "object has no attribute strip") ∧
    process_image (.parsed data) fbn = .err fbn "object has no attribute strip" ∧
    ∀ m, PyErr.attributeError "object has no attribute strip" ≠ PyErr.valueError m := by
  have hb : backfill data = .error (.attributeError "object has no attribute strip") := by
    simp [backfill, dictGetD, hT, pyStrip]
  exact ⟨hb, by simp [process_image, hb, pyErrStr], fun m => by simp⟩

/-- C10 witness: a reply whose total is the JSON number `917` errors the
page. -/
theorem nonstring_total_escapes_guard_witness :
    backfill [("Total Amount (Rs)", JVal.jnum ⟨917, 0⟩)] =
      .error (.attributeError "object has no attribute strip") ∧
    process_image (.parsed [("Total Amount (Rs)", JVal.jnum ⟨917, 0⟩)]) "bill" =
      .err "bill" "object has no attribute strip" ∧
    ∀ m, PyErr.attributeError "object has no attribute strip" ≠ PyErr.valueError m :=
  nonstring_total_escapes_guard [("Total Amount (Rs)", JVal.jnum ⟨917, 0⟩)] ⟨917, 0⟩ "bill"
    (by decide)

/-! ## Claim theorems: key handling (C4) -/

/-- C4 counterexample: the reply `{}` (fence-free, parses to the empty JSON
object) is returned by the normalizer as a *success* whose record contains
none of the six documented keys — they are not materialized as empty
strings in the returned record. -/
theorem normalizer_record_missing_keys_cex :
    process_image (.parsed []) "f" = .ok "f" [] ∧ hasSixKeys [] = false := by
  constructor
  · decide
  · decide

theorem backfillTry_shape (data d : JObj) (h : backfillTry data = .ok d) :
    ∃ s, d = dictSet data "Total Amount (Rs)" (.jstr s) := by
  unfold backfillTry at h
  split at h
  · exact Except.noConfusion h
  · split at h
    · exact Except.noConfusion h
    · split at h
      · exact Except.noConfusion h
      · split at h
        · exact Except.noConfusion h
        · exact ⟨_, (Except.ok.inj h).symm⟩

theorem backfill_shape (data d : JObj) (h : backfill data = .ok d) :
    d = data ∨ ∃ s, d = dictSet data "Total Amount (Rs)" (.jstr s) := by
  unfold backfill at h
  split at h
  · exact Except.noConfusion h
  · rename_i st hst
    by_cases hc : (st == "" && truthyO (dictGet data "Volume(L)")
        && truthyO (dictGet data "Rate per Litre")) = true
    · rw [if_pos hc] at h
      rcases htry : backfillTry data with e | d2 <;> rw [htry] at h
      · rcases e with m | m | m | m
        · exact Or.inl (Except.ok.inj h).symm
        · exact Except.noConfusion h
        · exact Except.noConfusion h
        · exact Except.noConfusion h
      · obtain ⟨s, hsd⟩ := backfillTry_shape data d2 htry
        exact Or.inr ⟨s, (Except.ok.inj h) ▸ hsd⟩
    · rw [if_neg hc] at h
      exact Or.inl (Except.ok.inj h).symm

/-- C4 (amended): absent keys are not an error.  Whenever the back-fill
does not raise (it raises only for a non-string total — the C10 path),
the normalizer returns the parsed record as a success; the returned
record's keys are exactly those the model supplied, except that the
back-fill may write the single key `Total Amount (Rs)`.  Every read of
the record defaults an absent key to the empty string: the back-fill's
total read (`data.get(k, "")`, last conjunct) and the offline spreadsheet
row, which writes `""` for each of the six keys when absent. -/
theorem normalizer_absent_keys_defaulted
    (fbn : String) (data d : JObj)
    (h : backfill data = .ok d) :
    process_image (.parsed data) fbn = .ok fbn d ∧
    (d = data ∨ ∃ s, d = dictSet data "Total Amount (Rs)" (.jstr s)) ∧
    backfill ([] : JObj) = .ok ([] : JObj) ∧
    excelRow fbn ([] : JObj) =
      [.jstr fbn, .jstr "", .jstr "", .jstr "", .jstr "", .jstr "", .jstr ""] ∧
    dictGetD ([] : JObj) "Total Amount (Rs)" (.jstr "") = .jstr "" := by
  refine ⟨by simp [process_image, h], backfill_shape data d h, by decide, ?_, by decide⟩
  simp [excelRow, dictGetD, dictGet]

/-- C4 witness: a record carrying only `Date` round-trips unchanged as a
success. -/
theorem normalizer_absent_keys_defaulted_witness :
    process_image (.parsed [("Date", JVal.jstr "01/01/2024")]) "f" =
      .ok "f" [("Date", JVal.jstr "01/01/2024")] ∧
    ([("Date", JVal.jstr "01/01/2024")] = [("Date", JVal.jstr "01/01/2024")] ∨
      ∃ s, [("Date", JVal.jstr "01/01/2024")] =
        dictSet [("Date", JVal.jstr "01/01/2024")] "Total Amount (Rs)" (.jstr s)) ∧
    backfill ([] : JObj) = .ok ([] : JObj) ∧
    excelRow "f" ([] : JObj) =
      [.jstr "f", .jstr "", .jstr "", .jstr "", .jstr "", .jstr "", .jstr ""] ∧
    dictGetD ([] : JObj) "Total Amount (Rs)" (.jstr "") = .jstr "" :=
  normalizer_absent_keys_defaulted "f" [("Date", JVal.jstr "01/01/2024")]
    [("Date", JVal.jstr "01/01/2024")] (by decide)

/-! ## Helper lemmas for the orchestrator -/

theorem process_image_file (p : PageOutcome) (fbn : String) :
    (process_image p fbn).file = fbn := by
  cases p with
  | exn msg => simp [process_image, ResultItem.file]
  | parsed data =>
    cases hb : backfill data <;> simp [process_image, hb, ResultItem.file]

theorem pageLoopAux_length (base : String) (n : ℕ) :
    ∀ (ps : List PageOutcome) (i : ℕ), (pageLoopAux base n i ps).length = ps.length := by
  intro ps
  induction ps with
  | nil => intro i; simp [pageLoopAux]
  | cons p rest ih => intro i; simp [pageLoopAux, ih]

theorem pageLoopAux_map_file (base : String) (n : ℕ) :
    ∀ (ps : List PageOutcome) (i : ℕ),
      (pageLoopAux base n i ps).map ResultItem.file =
        (List.range ps.length).map (fun j => pageName base n (i + j)) := by
  intro ps
  induction ps with
  | nil => intro i; simp [pageLoopAux]
  | cons p rest ih =>
    intro i
    simp only [pageLoopAux, List.map_cons, process_image_file, List.length_cons,
      List.range_succ_eq_map, List.map_map, ih]
    have htail : List.map (fun j => pageName base n (i + 1 + j)) (List.range rest.length) =
        List.map ((fun j => pageName base n (i + j)) ∘ Nat.succ) (List.range rest.length) := by
      apply List.map_congr_left
      intro j _
      simp only [Function.comp_apply]
      have hidx : i + 1 + j = i + (j + 1) := by omega
      rw [hidx]
    rw [htail]
    simp

theorem pageLoopAux_get? (base : String) (n : ℕ) :
    ∀ (ps : List PageOutcome) (i j : ℕ),
      (pageLoopAux base n i ps).get? j =
        (ps.get? j).map (fun p => process_image p (pageName base n (i + j))) := by
  intro ps
  induction ps with
  | nil => intro i j; simp [pageLoopAux]
  | cons p rest ih =>
    intro i j
    cases j with
    | zero => simp [pageLoopAux]
    | succ j' =>
      have hidx : i + (j' + 1) = i + 1 + j' := by omega
      simp only [pageLoopAux, List.get?_cons_succ, hidx]
      exact ih (i + 1) j' 

theorem upload_files_append (xs ys : List UploadItem) :
    upload_files (xs ++ ys) = upload_files xs ++ upload_files ys := by
  induction xs with
  | nil => simp [upload_files]
  | cons f rest ih => simp [upload_files, ih]

theorem mem_const_map {α : Type} (ps : List α) (e : Ev)
    (h : e ∈ ps.map (fun _ => Ev.modelCall)) : e = Ev.modelCall := by
  rcases List.mem_map.mp h with ⟨a, _, h2⟩
  exact h2.symm

theorem runItemBody_events_are_calls (f : UploadItem) :
    ∀ e ∈ (runItemBody f).1, e = Ev.modelCall := by
  intro e he
  rcases hs : f.saveErr with _ | msg
  · by_cases hz : f.size = 0
    · simp [runItemBody, hs, hz] at he
    · by_cases hp : pdfNamed f.filename
      · rcases he2 : f.pdfEnv with msg | ps
        · simp [runItemBody, hs, hz, hp, he2] at he
        · by_cases hps : ps = []
          · simp [runItemBody, hs, hz, hp, he2, hps] at he
          · have hbody : (runItemBody f).1 = ps.map (fun _ => Ev.modelCall) := by
              simp [runItemBody, hs, hz, hp, he2, hps]
            rw [hbody] at he
            exact mem_const_map ps e he
      · rcases he2 : f.imgEnv with msg | p
        · simp [runItemBody, hs, hz, hp, he2] at he
        · have hbody : (runItemBody f).1 = [Ev.modelCall] := by
            simp [runItemBody, hs, hz, hp, he2]
          rw [hbody] at he
          simpa using he
  · simp [runItemBody, hs] at he

theorem foldl_residualStep_calls (evs : List Ev) (acc : List String)
    (h : ∀ e ∈ evs, e = Ev.modelCall) :
    evs.foldl residualStep acc = acc := by
  induction evs generalizing acc with
  | nil => rfl
  | cons e rest ih =>
    have he : e = Ev.modelCall := h e (by simp)
    rw [List.foldl_cons, he]
    exact ih acc (fun x hx => h x (by simp [hx]))

theorem foldl_residualStep_item (f : UploadItem) (acc : List String) :
    (processItem f).1.foldl residualStep acc = acc.filter (fun m => m ≠ f.filename) ∨
    (processItem f).1.foldl residualStep acc = acc := by
  unfold processItem
  by_cases ha : allowed_file f.filename
  · left
    rw [if_pos ha]
    simp only [List.foldl_cons, List.foldl_append, residualStep]
    rw [foldl_residualStep_calls _ _ (runItemBody_events_are_calls f)]
    simp [residualStep]
  · right
    rw [if_neg ha]
    rfl

/-! ## Claim theorems: the orchestrator -/

/-- C5: a file that passes intake and page extraction yields identifiers
`<basename>` when it has exactly one page, and `<basename>_page1` …
`<basename>_pageN` in page order when it has `N > 1` pages; a raster image
always yields the single un-suffixed `<basename>`. -/
theorem result_identifiers_follow_pages
    (f : UploadItem) (ps : List PageOutcome) (p : PageOutcome) :
    (allowed_file f.filename = true → f.saveErr = none → f.size ≠ 0 →
      pdfNamed f.filename = true → f.pdfEnv = Except.ok ps → ps ≠ [] →
      ((ps.length = 1 →
          ((processItem f).2).map ResultItem.file = [splitextRoot f.filename]) ∧
       (1 < ps.length →
          ((processItem f).2).map ResultItem.file =
            (List.range ps.length).map
              (fun i => splitextRoot f.filename ++ "_page" ++ toString (i + 1))))) ∧
    (allowed_file f.filename = true → f.saveErr = none → f.size ≠ 0 →
      pdfNamed f.filename = false → f.imgEnv = Except.ok p →
      ((processItem f).2).map ResultItem.file = [splitextRoot f.filename]) := by
  constructor
  · intro ha hs hz hp he hne
    have hres : (processItem f).2 = pageLoop f.filename ps := by
      simp [processItem, ha, runItemBody, hs, hz, hp, he, hne]
    rw [hres]
    unfold pageLoop
    rw [pageLoopAux_map_file]
    constructor
    · intro h1
      rw [h1]
      simp [pageName]
    · intro h1
      apply List.map_congr_left
      intro j _
      simp [pageName, h1]
  · intro ha hs hz hp he
    have hres : (processItem f).2 = pageLoop f.filename [p] := by
      simp [processItem, ha, runItemBody, hs, hz, hp, he]
    rw [hres]
    unfold pageLoop
    rw [pageLoopAux_map_file]
    simp [pageName]

/-- C5 witness: a two-page PDF `bill.pdf` yields `bill_page1`, `bill_page2`;
a one-page image `scan.png` yields `scan`. -/
theorem result_identifiers_follow_pages_witness :
    ((processItem ⟨"bill.pdf", 5, none, Except.ok [.exn "a", .exn "b"],
        Except.error "unused"⟩).2).map ResultItem.file = ["bill_page1", "bill_page2"] ∧
    ((processItem ⟨"scan.png", 5, none, Except.error "unused",
        Except.ok (.exn "a")⟩).2).map ResultItem.file = ["scan"] := by
  constructor
  · have h := (result_identifiers_follow_pages
      ⟨"bill.pdf", 5, none, Except.ok [.exn "a", .exn "b"], Except.error "unused"⟩
      [.exn "a", .exn "b"] (.exn "a")).1
      (by decide) rfl (by decide) (by decide) rfl (by decide)
    exact (h.2 (by decide)).trans (by decide)
  · have h := (result_identifiers_follow_pages
      ⟨"scan.png", 5, none, Except.error "unused", Except.ok (.exn "a")⟩
      [] (.exn "a")).2
      (by decide) rfl (by decide) (by decide) rfl
    exact h.trans (by decide)

/-- C6: the batch result is the in-order concatenation of each uploaded
item's results, every item contributes at least one result (no input is
silently dropped), and a file that reaches the page loop contributes
exactly one result per page, in page order. -/
theorem batch_results_cover_all_inputs :
    (∀ files, upload_files files = (files.map (fun f => (processItem f).2)).flatten) ∧
    (∀ f : UploadItem, 1 ≤ ((processItem f).2).length) ∧
    (∀ fname ps, (pageLoop fname ps).length = ps.length) := by
  refine ⟨?_, ?_, ?_⟩
  · intro files
    induction files with
    | nil => simp [upload_files]
    | cons f rest ih => simp [upload_files, ih]
  · intro f
    by_cases ha : allowed_file f.filename
    · have h2 : (processItem f).2 = (runItemBody f).2 := by simp [processItem, ha]
      rw [h2]
      rcases hs : f.saveErr with _ | msg
      · by_cases hz : f.size = 0
        · simp [runItemBody, hs, hz]
        · by_cases hp : pdfNamed f.filename
          · rcases he : f.pdfEnv with msg | ps
            · simp [runItemBody, hs, hz, hp, he]
            · by_cases hps : ps = []
              · simp [runItemBody, hs, hz, hp, he, hps]
              · have h3 : (runItemBody f).2 = pageLoop f.filename ps := by
                  simp [runItemBody, hs, hz, hp, he, hps]
                rw [h3]
                unfold pageLoop
                rw [pageLoopAux_length]
                have := List.length_pos.mpr hps
                omega
          · rcases he : f.imgEnv with msg | p
            · simp [runItemBody, hs, hz, hp, he]
            · simp [runItemBody, hs, hz, hp, he, pageLoop, pageLoopAux]
      · simp [runItemBody, hs]
    · simp [processItem, ha]
  · intro fname ps
    unfold pageLoop
    rw [pageLoopAux_length]

/-- C7: errors are contained to the item or page that produced them — the
batch result around any one item is unaffected by that item's outcome,
each page's result depends only on that page's own outcome, and a page
whose model call or parse raised becomes exactly that page's error
result. -/
theorem upload_error_containment :
    (∀ pre f post, upload_files (pre ++ f :: post) =
        upload_files pre ++ (processItem f).2 ++ upload_files post) ∧
    (∀ fname ps j, (pageLoop fname ps).get? j =
        (ps.get? j).map
          (fun p => process_image p (pageName (splitextRoot fname) ps.length j))) ∧
    (∀ fbn msg, process_image (PageOutcome.exn msg) fbn = .err fbn msg) := by
  refine ⟨?_, ?_, ?_⟩
  · intro pre f post
    rw [show pre ++ f :: post = pre ++ [f] ++ post by simp, upload_files_append,
      upload_files_append]
    simp [upload_files]
  · intro fname ps j
    unfold pageLoop
    rw [pageLoopAux_get?]
    simp
  · intro fbn msg
    rfl

/-- C8: an item with a disallowed extension yields exactly the
invalid-file-type error result, and an item that saves as zero bytes
yields exactly the empty-file error result; in both cases no
`generate_content` request is ever issued for the item. -/
theorem rejected_items_never_reach_model (f : UploadItem) :
    (allowed_file f.filename = false →
      (processItem f).2 =
        [.err f.filename "Invalid file type. Allowed types: PDF, PNG, JPG, JPEG"] ∧
      Ev.modelCall ∉ (processItem f).1) ∧
    (allowed_file f.filename = true → f.saveErr = none → f.size = 0 →
      (processItem f).2 = [.err f.filename "File is empty"] ∧
      Ev.modelCall ∉ (processItem f).1) := by
  constructor
  · intro ha
    constructor
    · simp [processItem, ha]
    · simp [processItem, ha]
  · intro ha hs hz
    have hbody : runItemBody f = ([], [.err f.filename "File is empty"]) := by
      simp [runItemBody, hs, hz]
    constructor
    · simp [processItem, ha, hbody]
    · simp [processItem, ha, hbody]

/-- C8 witness: `bill.docx` is rejected with the invalid-type error and no
model call; an empty `bill.png` gets the empty-file error and no model
call. -/
theorem rejected_items_never_reach_model_witness :
    ((processItem ⟨"bill.docx", 10, none, Except.ok [], Except.error "unused"⟩).2 =
        [.err "bill.docx" "Invalid file type. Allowed types: PDF, PNG, JPG, JPEG"] ∧
      Ev.modelCall ∉
        (processItem ⟨"bill.docx", 10, none, Except.ok [], Except.error "unused"⟩).1) ∧
    ((processItem ⟨"bill.png", 0, none, Except.error "unused", Except.error "unused"⟩).2 =
        [.err "bill.png" "File is empty"] ∧
      Ev.modelCall ∉
        (processItem ⟨"bill.png", 0, none, Except.error "unused", Except.error "unused"⟩).1) :=
  ⟨(rejected_items_never_reach_model
      ⟨"bill.docx", 10, none, Except.ok [], Except.error "unused"⟩).1 (by decide),
   (rejected_items_never_reach_model
      ⟨"bill.png", 0, none, Except.error "unused", Except.error "unused"⟩).2
      (by decide) rfl rfl⟩

/-- C9: after any batch — all-success, all-failure, or mixed — no
temporary file remains: every `save` in the event trace is closed by the
`finally`-block's `remove`, so the residual temporary-file set is empty. -/
theorem no_residual_temp_files (files : List UploadItem) :
    residual (uploadEvents files) = [] := by
  suffices h : ∀ fs : List UploadItem, (uploadEvents fs).foldl residualStep [] = [] by
    exact h files
  intro fs
  induction fs with
  | nil => rfl
  | cons f rest ih =>
    have : uploadEvents (f :: rest) = (processItem f).1 ++ uploadEvents rest := rfl
    rw [this, List.foldl_append]
    rcases foldl_residualStep_item f [] with h | h
    · rw [h]; simpa using ih
    · rw [h]; exact ih

end FuelBill
